import Mathlib

/-!
Verification of the document-analysis workflow engine of the contract-analysis
platform (frontend in `hebbia-clone/`, backend described by the repository's
README).  The frontend TypeScript sources are embedded directly; the backend
agents (retrieval, validation, orchestration) are present in the repository
only through their documentation, so those parts are modelled from the spec,
as marked on each definition.
-/

namespace ContractAnalysis

/-! ## Text normalization and quote verification (Field Extractor, spec 4.3) -/

/-- Modelled from the spec: the Field Extractor's quote check is a
"case-insensitive, whitespace-normalized substring check".  `wordsAux`
splits a character list into maximal whitespace-free words; `acc` holds the
characters of the current word in reverse. -/
def wordsAux : List Char → List Char → List (List Char)
  | acc, [] => if acc.isEmpty then [] else [acc.reverse]
  | acc, c :: rest =>
    if c.isWhitespace then
      if acc.isEmpty then wordsAux [] rest
      else acc.reverse :: wordsAux [] rest
    else wordsAux (c :: acc) rest

/-- Joins words back together with single spaces. -/
def joinSp : List (List Char) → List Char
  | [] => []
  | [w] => w
  | w :: ws => w ++ ' ' :: joinSp ws

/-- Modelled from the spec: lowercases a string and collapses every maximal
whitespace run to a single space, trimming the ends. -/
def normText (s : String) : List Char :=
  joinSp (wordsAux [] (s.toList.map Char.toLower))

/-- Checks that the first character list is an initial segment of the
second one. -/
def leadingCheck : List Char → List Char → Bool
  | [], _ => true
  | _ :: _, [] => false
  | a :: as, b :: bs => a == b && leadingCheck as bs

/-- Checks that the first character list occurs contiguously inside the
second one. -/
def containsChars : List Char → List Char → Bool
  | needle, [] => needle.isEmpty
  | needle, c :: rest => leadingCheck needle (c :: rest) || containsChars needle rest

/-- Modelled from the spec: the case-insensitive, whitespace-normalized
substring check used by the Field Extractor to verify a quote against a
chunk text. -/
def quoteInText (quote text : String) : Bool :=
  containsChars (normText quote) (normText text)

/-! ## Data model (spec section 3) -/

/-- Retrieval strategies of the Hybrid Retriever (spec 4.2). -/
inductive Strategy where
  | semantic
  | keyword
  | termMatch
deriving DecidableEq, Repr

/-- RetrievalCandidate record from the spec's data model. -/
structure RetrievalCandidate where
  chunkId : ℕ
  documentId : String
  score : ℚ
  strategy : Strategy
deriving DecidableEq, Repr

/-- FieldSpec record from the spec's data model. -/
structure FieldSpec where
  name : String
  extractionInstruction : String
  keywords : List String
deriving DecidableEq, Repr

/-- ExtractionRecord from the spec's data model, together with the
"unverified" mark of spec 4.3 ("marks the value as unverified rather than
discarding it"). -/
structure ExtractionRecord where
  documentId : String
  fieldName : String
  value : String
  exactQuote : String
  pageNumbers : List String
  documentUrl : String
  confidence : ℚ
  verified : Bool
deriving DecidableEq, Repr

/-- Raw structured output of the extraction capability before the
Extractor's independent verification (spec 4.3). -/
structure RawExtraction where
  value : String
  exactQuote : String
  pageNumbers : List String
  reportedConfidence : ℚ
deriving DecidableEq, Repr

/-- Modelled from the spec: confidence values outside `[0, 1]` are clamped
(spec section 3 invariants). -/
def clamp01 (q : ℚ) : ℚ := if q < 0 then 0 else if 1 < q then 1 else q

/-- Maximum of two rationals, written out so that it evaluates by kernel
reduction. -/
def qmax (a b : ℚ) : ℚ := if a ≤ b then b else a

/-- Modelled from the spec: the deep-link `documentUrl` is "built
deterministically from the document identifier and a URL-encoded fragment of
the quote"; the README shows the Google Docs text-fragment form. -/
def mkDocUrl (docId quote : String) : String :=
  "https://docs.google.com/document/d/" ++ docId ++ "#:~:text=" ++
    String.mk ((normText quote).map (fun c => if c = ' ' then '+' else c))

/-- Modelled from the spec (4.3): after the extraction capability returns,
the Extractor verifies the quote against the candidate chunk texts with the
normalized substring check; on mismatch it halves the reported confidence
and marks the value as unverified rather than discarding it.  Reported
confidences are clamped to `[0, 1]` (spec section 3). -/
def verifyAndBuild (docId fieldName : String) (candidateTexts : List String)
    (raw : RawExtraction) : ExtractionRecord :=
  let ok := candidateTexts.any (fun t => quoteInText raw.exactQuote t)
  { documentId := docId
    fieldName := fieldName
    value := raw.value
    exactQuote := raw.exactQuote
    pageNumbers := raw.pageNumbers
    documentUrl := mkDocUrl docId raw.exactQuote
    confidence :=
      if ok then clamp01 raw.reportedConfidence
      else clamp01 raw.reportedConfidence / 2
    verified := ok }

/-! ## Hybrid Retriever: rank fusion (spec 4.2, README "Retrieval Settings") -/

/-- Modelled from the spec: per-strategy fusion weights are configurable with
the default favoring the semantic strategy (spec 4.2); the exact default
values are not pinned by the spec. -/
def weightOf : Strategy → ℚ
  | Strategy.semantic => 1
  | Strategy.keyword => 7/10
  | Strategy.termMatch => 1/2

/-- Weighted per-strategy score of one candidate (spec 4.2). -/
def weightedScore (c : RetrievalCandidate) : ℚ :=
  weightOf c.strategy * c.score

/-- Modelled from the spec: when the same chunk is returned by multiple
strategies its fused score keeps the maximum weighted per-strategy score
(spec 4.2, testable property 3: "dedup by max fused score per chunk id"). -/
def fusedScore (cs : List RetrievalCandidate) (cid : ℕ) : ℚ :=
  ((cs.filter (fun c => c.chunkId == cid)).map weightedScore).foldr qmax 0

/-- Modelled from the spec: merging the per-strategy candidate lists by chunk
identity, one entry `(chunkId, fused score)` per distinct chunk. -/
def fuse (strats : List (List RetrievalCandidate)) : List (ℕ × ℚ) :=
  (((strats.flatMap (fun l => l)).map (fun c => c.chunkId)).dedup).map
    (fun cid => (cid, fusedScore (strats.flatMap (fun l => l)) cid))

/-- Ranking order on fused entries: higher score first, ties broken by
ascending chunk identifier (spec 4.2 determinism rule). -/
def rankOrder (a b : ℕ × ℚ) : Prop :=
  b.2 < a.2 ∨ (a.2 = b.2 ∧ a.1 ≤ b.1)

instance : DecidableRel rankOrder := fun a b => by
  unfold rankOrder; exact inferInstance

instance : IsTotal (ℕ × ℚ) rankOrder where
  total a b := by
    rcases lt_trichotomy a.2 b.2 with h | h | h
    · exact Or.inr (Or.inl h)
    · rcases Nat.le_total a.1 b.1 with h1 | h1
      · exact Or.inl (Or.inr ⟨h, h1⟩)
      · exact Or.inr (Or.inr ⟨h.symm, h1⟩)
    · exact Or.inl (Or.inl h)

instance : IsTrans (ℕ × ℚ) rankOrder where
  trans a b c hab hbc := by
    rcases hab with h1 | ⟨h1, h1'⟩
    · rcases hbc with h2 | ⟨h2, _⟩
      · exact Or.inl (h2.trans h1)
      · exact Or.inl (h2 ▸ h1)
    · rcases hbc with h2 | ⟨h2, h2'⟩
      · exact Or.inl (h1.symm ▸ h2)
      · exact Or.inr ⟨h1.trans h2, h1'.trans h2'⟩

instance : IsAntisymm (ℕ × ℚ) rankOrder where
  antisymm a b hab hba := by
    rcases hab with h1 | ⟨h1, h1'⟩
    · rcases hba with h2 | ⟨h2, _⟩
      · exact absurd (h1.trans h2) (lt_irrefl _)
      · exact absurd (h2 ▸ h1) (lt_irrefl _)
    · rcases hba with h2 | ⟨h2, h2'⟩
      · exact absurd (h1 ▸ h2) (lt_irrefl _)
      · exact Prod.ext (Nat.le_antisymm h1' h2') h1

/-- Retrieval parameters threaded through the retry loop (README defaults
`SCORE_THRESHOLD = 0.3`, `TOP_K = 20`). -/
structure RetrievalParams where
  scoreThreshold : ℚ
  K : ℕ
deriving DecidableEq, Repr

/-- Default retrieval parameters from the README's "Retrieval Settings". -/
def defaultParams : RetrievalParams := { scoreThreshold := 3/10, K := 20 }

/-- Modelled from the spec: the merged list is filtered to scores at or above
`scoreThreshold`, ordered by descending fused score with ties broken by
ascending chunk identifier, and truncated to the top `K` (spec 4.2). -/
def fuseTopK (p : RetrievalParams) (strats : List (List RetrievalCandidate)) :
    List (ℕ × ℚ) :=
  (((fuse strats).insertionSort rankOrder).filter
    (fun e => decide (p.scoreThreshold ≤ e.2))).take p.K

/-- Modelled from the spec: the fixed step by which `K` is increased on
retry (spec 4.4); the spec does not pin the value. -/
def K_STEP : ℕ := 10

/-- Modelled from the spec (4.4): on retry the retrieval parameters are
relaxed — `scoreThreshold` halved, `K` increased by a fixed step. -/
def relax (p : RetrievalParams) : RetrievalParams :=
  { scoreThreshold := p.scoreThreshold / 2, K := p.K + K_STEP }

/-! ## Validator (spec 4.4, README "Confidence Thresholds") -/

/-- Maximum number of retry passes (README `MAX_RETRIES = 3`). -/
def MAX_RETRIES : ℕ := 3

/-- Minimum extraction success rate below which a retry is requested
(spec 4.4: 0.30; README: "Extraction success rate < 30%"). -/
def MIN_SUCCESS_RATE : ℚ := 3/10

/-- Minimum mean retrieval confidence below which a retry is requested
(README `MIN_RETRIEVAL_CONFIDENCE = 0.4`). -/
def MIN_RETRIEVAL_CONFIDENCE : ℚ := 2/5

/-- ValidationVerdict record from the spec's data model. -/
structure ValidationVerdict where
  successRate : ℚ
  meanRetrievalConfidence : ℚ
  shouldRetry : Bool
  reason : String
deriving DecidableEq, Repr

/-- Modelled from the spec (4.4): a cell counts as successful when its
confidence is above the per-field minimum and its value is not one of
"Not found", "Not specified". -/
def isSuccessCell (fieldMin : String → ℚ) (r : ExtractionRecord) : Bool :=
  decide (fieldMin r.fieldName < r.confidence) &&
    !(r.value == "Not found") && !(r.value == "Not specified")

/-- Modelled from the spec (4.4): fraction of extraction cells in the pass
that count as successful (0 when the pass produced no cells). -/
def successRate (fieldMin : String → ℚ) (records : List ExtractionRecord) : ℚ :=
  if records.length = 0 then 0
  else (records.countP (isSuccessCell fieldMin) : ℚ) / (records.length : ℚ)

/-- Mean of a list of rational confidences (0 for the empty list). -/
def meanOf (qs : List ℚ) : ℚ :=
  if qs.length = 0 then 0 else qs.sum / (qs.length : ℚ)

/-- Modelled from the spec (4.4): the Validator's decision rule — retry is
requested when (`successRate < MIN_SUCCESS_RATE` or
`meanRetrievalConfidence < MIN_RETRIEVAL_CONFIDENCE`) and
`retryCount < MAX_RETRIES`; otherwise the pass is accepted. -/
def computeVerdict (fieldMin : String → ℚ) (records : List ExtractionRecord)
    (retrievalConfs : List ℚ) (retryCount : ℕ) : ValidationVerdict :=
  let sr := successRate fieldMin records
  let mrc := meanOf retrievalConfs
  { successRate := sr
    meanRetrievalConfidence := mrc
    shouldRetry :=
      (decide (sr < MIN_SUCCESS_RATE) || decide (mrc < MIN_RETRIEVAL_CONFIDENCE)) &&
        decide (retryCount < MAX_RETRIES)
    reason :=
      if (decide (sr < MIN_SUCCESS_RATE) || decide (mrc < MIN_RETRIEVAL_CONFIDENCE)) &&
          decide (retryCount < MAX_RETRIES) then ("low quality, retrying")
      else ("accepted") }

/-! ## Synthesizer (spec 4.5) and MatrixResult -/

/-- MatrixResult from the spec's data model: column names plus rows mapping
a document to its per-field extraction records. -/
structure MatrixResult where
  columns : List String
  rows : List (String × List (String × ExtractionRecord))
deriving DecidableEq, Repr

/-- Modelled from the spec: the placeholder record produced for a document
and field when extraction yielded nothing — "extraction failure does not
remove a row; it yields a 'Not found' value" (spec section 3). -/
def notFoundRecord (docId fieldName : String) : ExtractionRecord :=
  { documentId := docId
    fieldName := fieldName
    value := "Not found"
    exactQuote := ""
    pageNumbers := []
    documentUrl := ""
    confidence := 0
    verified := false }

/-- Modelled from the spec: the documents that produced at least one
surviving retrieval candidate for at least one field, in first-seen order. -/
def rowDocuments (retrievalByField : List (String × List RetrievalCandidate)) :
    List String :=
  ((retrievalByField.map (fun fc => fc.2.map (fun c => c.documentId))).flatten).dedup

/-- Looks up the extraction record for one matrix cell, falling back to the
"Not found" placeholder. -/
def cellFor (records : List ExtractionRecord) (docId fieldName : String) :
    ExtractionRecord :=
  match records.find? (fun r => r.documentId == docId && r.fieldName == fieldName) with
  | some r => r
  | none => notFoundRecord docId fieldName

/-- Modelled from the spec (4.5): the Synthesizer assembles the accepted
pass's records into the matrix; a document appears as a row iff it produced
at least one retrieval candidate for at least one field, and the columns
are exactly the derived field names, order-preserving. -/
def buildMatrix (fieldSpecs : List FieldSpec)
    (retrievalByField : List (String × List RetrievalCandidate))
    (records : List ExtractionRecord) : MatrixResult :=
  { columns := fieldSpecs.map (fun f => f.name)
    rows := (rowDocuments retrievalByField).map (fun d =>
      (d, fieldSpecs.map (fun f => (f.name, cellFor records d f.name)))) }

/-! ## Workflow Orchestrator state machine (spec section "Orchestrator") -/

/-- Phases of the orchestrator state machine. -/
inductive Phase where
  | processing
  | retrieving
  | extracting
  | validating
  | synthesizing
  | done
deriving DecidableEq, Repr

/-- WorkflowState from the spec's data model, threaded through the machine. -/
structure WState where
  phase : Phase
  prompt : String
  fieldSpecs : List FieldSpec
  retrievalByField : List (String × List RetrievalCandidate)
  retrievalConfs : List ℚ
  records : List ExtractionRecord
  retryCount : ℕ
  params : RetrievalParams
deriving Repr

/-- Initial workflow state for one request. -/
def initState (prompt : String) : WState :=
  { phase := Phase.processing
    prompt := prompt
    fieldSpecs := []
    retrievalByField := []
    retrievalConfs := []
    records := []
    retryCount := 0
    params := defaultParams }

/-- Modelled from the spec: the orchestrator's transition relation,
`Processing → Retrieving → Extracting → Validating → {Retrieving (on retry)
| Synthesizing} → Done`.  The environment (language and retrieval
capabilities) supplies field specs, candidates and records
nondeterministically; the retry edge is guarded by the Validator's verdict
and is the only back-edge. -/
inductive WStep (fieldMin : String → ℚ) : WState → WState → Prop where
  | process (s : WState) (specs : List FieldSpec) :
      s.phase = Phase.processing →
      WStep fieldMin s { s with phase := Phase.retrieving, fieldSpecs := specs }
  | retrieve (s : WState) (retr : List (String × List RetrievalCandidate))
      (confs : List ℚ) :
      s.phase = Phase.retrieving →
      WStep fieldMin s
        { s with phase := Phase.extracting, retrievalByField := retr,
                 retrievalConfs := confs }
  | extract (s : WState) (recs : List ExtractionRecord) :
      s.phase = Phase.extracting →
      WStep fieldMin s { s with phase := Phase.validating, records := recs }
  | retryPass (s : WState) :
      s.phase = Phase.validating →
      (computeVerdict fieldMin s.records s.retrievalConfs s.retryCount).shouldRetry
        = true →
      WStep fieldMin s
        { s with phase := Phase.retrieving, retryCount := s.retryCount + 1,
                 params := relax s.params }
  | accept (s : WState) :
      s.phase = Phase.validating →
      (computeVerdict fieldMin s.records s.retrievalConfs s.retryCount).shouldRetry
        = false →
      WStep fieldMin s { s with phase := Phase.synthesizing }
  | synthesize (s : WState) :
      s.phase = Phase.synthesizing →
      WStep fieldMin s { s with phase := Phase.done }

/-- Reachability in the orchestrator state machine. -/
def WReach (fieldMin : String → ℚ) : WState → WState → Prop :=
  Relation.ReflTransGen (WStep fieldMin)

/-! ## Frontend API layer, from `src/lib/api.ts` (`useBackendApi`) -/

/-- Backend base URL default from `api.ts`. -/
def BACKEND_URL : String := "http://localhost:8000"

/-- One network request as issued by `callBackendApi`: URL, method, bearer
token placed in the Authorization header, and optional JSON body. -/
structure ApiCallRecord where
  url : String
  method : String
  authToken : String
  body : Option String
deriving DecidableEq, Repr

/-- Response shape observed by `callBackendApi`: whether the content type is
HTML, the HTTP ok flag and status, and the response body. -/
structure HttpResponse where
  contentTypeHtml : Bool
  ok : Bool
  status : ℕ
  body : String
deriving DecidableEq, Repr

/-- Outcome of an API call: the parsed JSON body on success, or the thrown
error message. -/
inductive ApiOutcome where
  | success (body : String)
  | failure (msg : String)
deriving DecidableEq, Repr

/-- Embeds `callBackendApi` from `api.ts`: the Clerk token is fetched first
and a missing (or empty, by JS truthiness) token throws before `fetch` is
reached; otherwise exactly one request is issued with the bearer token, and
the response is checked for an HTML content type and the HTTP ok flag.  The
function returns the outcome together with the list of network requests
actually issued.  `respond` stands for the network. -/
def callBackendApi (token : Option String) (endpoint method : String)
    (body : Option String) (respond : ApiCallRecord → HttpResponse) :
    ApiOutcome × List ApiCallRecord :=
  match token with
  | none =>
    (ApiOutcome.failure ("No Clerk token found. User might not be authenticated."), [])
  | some tok =>
    if tok = "" then
      (ApiOutcome.failure ("No Clerk token found. User might not be authenticated."), [])
    else
      let req : ApiCallRecord :=
        { url := BACKEND_URL ++ endpoint, method := method, authToken := tok,
          body := body }
      let resp := respond req
      let outcome :=
        if resp.contentTypeHtml then
          ApiOutcome.failure
            "Backend requires authentication. Please check Vercel deployment protection settings."
        else if !resp.ok then
          ApiOutcome.failure ("API call failed with status " ++ toString resp.status)
        else ApiOutcome.success resp.body
      (outcome, [req])

/-! ## Page component, from `src/app/page.tsx` -/

/-- Analysis types of the platform (`page.tsx` line 8). -/
inductive AnalysisType where
  | general
  | risk
  | compliance
deriving DecidableEq, Repr

/-- Result shape consumed by `handleExtract` after the call returns:
the general branch reads `result.columns` / `result.data`, the other branch
stores the whole object as the specialized result. -/
inductive ConsumedShape where
  | matrixShape
  | specializedShape
deriving DecidableEq, Repr

/-- Embeds the dispatch of `handleExtract` (`page.tsx` lines 28-43): the
endpoint reached, the HTTP method, and the result shape consumed, as a
function of the analysis type. -/
def handleExtractDispatch (t : AnalysisType) : String × String × ConsumedShape :=
  if t = AnalysisType.general then
    ("/api/process", "POST", ConsumedShape.matrixShape)
  else
    ("/api/analyze-specialized", "POST", ConsumedShape.specializedShape)

/-- Cell data shape from `src/types/matrix.ts`. -/
structure CellData where
  value : String
  source : String
  source_text : Option String
  confidence : Option ℚ
  page_numbers : Option (List String)
  page_number : Option String
  document_id : Option String
  document_url : Option String
  exact_quote : Option String
  location_markers : Option (List String)
deriving DecidableEq, Repr

/-- Convenience constructor: a cell carrying only a value and a source. -/
def mkCell (v src : String) : CellData :=
  { value := v, source := src, source_text := none, confidence := none,
    page_numbers := none, page_number := none, document_id := none,
    document_url := none, exact_quote := none, location_markers := none }

/-- Embeds the empty-cell guard of `MatrixCell` (`MatrixCell.tsx` line 15):
the placeholder is rendered when the cell is missing, its value is empty
(JS falsiness of `!data.value`), or the value is one of the four sentinel
strings. -/
def rendersPlaceholder (data : Option CellData) : Bool :=
  match data with
  | none => true
  | some d =>
    d.value == "" || d.value == "N/A" || d.value == "Not found" ||
      d.value == "Not specified" || d.value == "Not Found"

/-- Embeds the per-cell filter of `totalExtractions` in `MatrixTable`
(`part_001` lines 20-24): a cell counts when present with a non-empty value
different from `N/A` and `Not found`. -/
def countedAsExtraction (c : CellData) : Bool :=
  !(c.value == "") && !(c.value == "N/A") && !(c.value == "Not found")

/-- Embeds `totalExtractions` from `MatrixTable`: the sum over documents of
the number of cells passing the filter. -/
def totalExtractions (data : List (String × List (String × CellData))) : ℕ :=
  (data.map (fun doc => (doc.2.filter (fun cell => countedAsExtraction cell.2)).length)).sum

/-- State kept by the page component (`page.tsx` lines 11-18).  The
`useState` destructuring for `analysisType` binds no setter. -/
structure PageState where
  prompt : String
  analysisType : AnalysisType
  generatedColumns : List String
  dataRows : List (String × List (String × CellData))
  specializedResult : Option String
  isLoading : Bool
  isIngesting : Bool
deriving Repr

/-- Initial page state (`page.tsx` lines 11-18): `analysisType` starts as
`general`. -/
def initialPageState : PageState :=
  { prompt := "Scan all third-party contracts and virtual data room documents for any change-of-control provisions, termination-for-convenience clauses, or non-solicitation clauses that would be triggered by this acquisition. Present a summary of each risk identified, citing the source document and page number."
    analysisType := AnalysisType.general
    generatedColumns := []
    dataRows := []
    specializedResult := none
    isLoading := false
    isIngesting := false }

/-- State setters invoked anywhere in `page.tsx`: every `set*` call present
in the component.  No event updates `analysisType`, because its `useState`
destructuring binds no setter. -/
inductive PageEvent where
  | setPrompt (s : String)
  | setGeneratedColumns (cs : List String)
  | setData (d : List (String × List (String × CellData)))
  | setSpecializedResult (r : Option String)
  | setIsLoading (b : Bool)
  | setIsIngesting (b : Bool)

/-- Applies one state update of the page component. -/
def applyEvent (s : PageState) : PageEvent → PageState
  | PageEvent.setPrompt p => { s with prompt := p }
  | PageEvent.setGeneratedColumns cs => { s with generatedColumns := cs }
  | PageEvent.setData d => { s with dataRows := d }
  | PageEvent.setSpecializedResult r => { s with specializedResult := r }
  | PageEvent.setIsLoading b => { s with isLoading := b }
  | PageEvent.setIsIngesting b => { s with isIngesting := b }

/-- Runs a sequence of page state updates from the initial state. -/
def runPage (evs : List PageEvent) : PageState :=
  evs.foldl applyEvent initialPageState

/-- Embeds the results-display branch of `page.tsx` (line 164): the matrix
table renders exactly when the analysis type is `general`. -/
def rendersMatrixTable (s : PageState) : Bool :=
  s.analysisType = AnalysisType.general

/-! ## Helper lemmas -/

/-- The explicit rational maximum agrees with the lattice maximum. -/
theorem qmax_eq_max (a b : ℚ) : qmax a b = max a b := (max_def a b).symm

instance : LeftCommutative qmax :=
  ⟨fun a b c => by simp only [qmax_eq_max]; exact max_left_comm a b c⟩

/-- A retry verdict can only be issued while the retry counter is strictly
below the maximum. -/
theorem shouldRetry_imp_lt (fieldMin : String → ℚ) (records : List ExtractionRecord)
    (confs : List ℚ) (rc : ℕ)
    (h : (computeVerdict fieldMin records confs rc).shouldRetry = true) :
    rc < MAX_RETRIES := by
  unfold computeVerdict at h
  simp only [Bool.and_eq_true, Bool.or_eq_true, decide_eq_true_eq] at h
  exact h.2

/-- One orchestrator step preserves the retry-counter bound. -/
theorem wstep_preserves_bound (fieldMin : String → ℚ) {s s' : WState}
    (hstep : WStep fieldMin s s') (hb : s.retryCount ≤ MAX_RETRIES) :
    s'.retryCount ≤ MAX_RETRIES := by
  cases hstep with
  | process _ _ => exact hb
  | retrieve _ _ _ => exact hb
  | extract _ _ => exact hb
  | retryPass _ hr =>
    have := shouldRetry_imp_lt fieldMin s.records s.retrievalConfs s.retryCount hr
    simpa using this
  | accept _ _ => exact hb
  | synthesize _ => exact hb

/-! ## C1: the retry counter is bounded by MAX_RETRIES -/

/-- C1: for every request, at every point reachable during the run the
retry counter satisfies `retryCount ≤ MAX_RETRIES` (= 3): the retry loop
is strictly bounded, each Validating-to-Retrieving back-edge increments the
counter and fires only below the bound. -/
theorem retry_count_bounded (fieldMin : String → ℚ) (s₀ s : WState)
    (h0 : s₀.retryCount = 0) (h : WReach fieldMin s₀ s) :
    s.retryCount ≤ MAX_RETRIES := by
  unfold WReach at h
  induction h with
  | refl => omega
  | tail _ hstep ih => exact wstep_preserves_bound fieldMin hstep ih

/-- Witness for C1 at the initial state of a concrete request. -/
theorem retry_count_bounded_witness :
    (initState ("find notice periods")).retryCount ≤ MAX_RETRIES :=
  retry_count_bounded (fun _ => 1/2) (initState ("find notice periods"))
    (initState ("find notice periods")) rfl Relation.ReflTransGen.refl

/-! ## C3: the Validator's decision rule -/

/-- C3: in every validating state the Validator requests a retry exactly
when (`successRate < MIN_SUCCESS_RATE` or `meanRetrievalConfidence <
MIN_RETRIEVAL_CONFIDENCE`) and `retryCount < MAX_RETRIES`; the machine
steps back to Retrieving exactly on a retry verdict and on to Synthesizing
exactly otherwise. -/
theorem validator_decision (fieldMin : String → ℚ) (s : WState)
    (h : s.phase = Phase.validating) :
    ((computeVerdict fieldMin s.records s.retrievalConfs s.retryCount).shouldRetry = true ↔
      ((successRate fieldMin s.records < MIN_SUCCESS_RATE ∨
        meanOf s.retrievalConfs < MIN_RETRIEVAL_CONFIDENCE) ∧
       s.retryCount < MAX_RETRIES)) ∧
    ((∃ s', WStep fieldMin s s' ∧ s'.phase = Phase.retrieving) ↔
      (computeVerdict fieldMin s.records s.retrievalConfs s.retryCount).shouldRetry = true) ∧
    ((∃ s', WStep fieldMin s s' ∧ s'.phase = Phase.synthesizing) ↔
      (computeVerdict fieldMin s.records s.retrievalConfs s.retryCount).shouldRetry = false) := by
  refine ⟨?_, ?_, ?_⟩
  · unfold computeVerdict
    simp [Bool.and_eq_true, Bool.or_eq_true, decide_eq_true_eq]
  · constructor
    · rintro ⟨s', hstep, hphase⟩
      cases hstep with
      | process _ hp => rw [h] at hp; exact absurd hp (by simp)
      | retrieve _ _ hp => rw [h] at hp; exact absurd hp (by simp)
      | extract _ hp => rw [h] at hp; exact absurd hp (by simp)
      | retryPass _ hr => exact hr
      | accept _ _ => exact absurd hphase (by simp)
      | synthesize hp => rw [h] at hp; exact absurd hp (by simp)
    · intro hr
      exact ⟨_, WStep.retryPass s h hr, rfl⟩
  · constructor
    · rintro ⟨s', hstep, hphase⟩
      cases hstep with
      | process _ hp => rw [h] at hp; exact absurd hp (by simp)
      | retrieve _ _ hp => rw [h] at hp; exact absurd hp (by simp)
      | extract _ hp => rw [h] at hp; exact absurd hp (by simp)
      | retryPass _ _ => exact absurd hphase (by simp)
      | accept _ ha => exact ha
      | synthesize hp => rw [h] at hp; exact absurd hp (by simp)
    · intro ha
      exact ⟨_, WStep.accept s h ha, rfl⟩

/-- Witness for C3: the decision rule evaluated in a concrete validating
state with no extraction records and no retrieval confidences. -/
theorem validator_decision_witness :
    (computeVerdict (fun _ => 1/2)
        { initState ("p") with phase := Phase.validating }.records
        { initState ("p") with phase := Phase.validating }.retrievalConfs
        { initState ("p") with phase := Phase.validating }.retryCount).shouldRetry = true ↔
      ((successRate (fun _ => 1/2)
          { initState ("p") with phase := Phase.validating }.records < MIN_SUCCESS_RATE ∨
        meanOf { initState ("p") with phase := Phase.validating }.retrievalConfs <
          MIN_RETRIEVAL_CONFIDENCE) ∧
       { initState ("p") with phase := Phase.validating }.retryCount < MAX_RETRIES) :=
  (validator_decision (fun _ => 1/2) { initState ("p") with phase := Phase.validating } rfl).1

/-! ## C2: citation invariant for positive-confidence records -/

/-- C2 counterexample: an extraction whose quote matches no candidate chunk
text still yields a record with positive confidence, because the Extractor
halves the reported confidence on mismatch instead of zeroing it
(spec 4.3); so a record with `confidence > 0` need not cite a quote found
in any candidate chunk. -/
theorem uncited_positive_confidence_counterexample :
    0 < (verifyAndBuild ("doc1") "notice_period" ["alpha beta"]
          { value := "30 days", exactQuote := "gamma", pageNumbers := [],
            reportedConfidence := 4/5 }).confidence ∧
    (["alpha beta"].any (fun t =>
      quoteInText
        (verifyAndBuild ("doc1") "notice_period" ["alpha beta"]
          { value := "30 days", exactQuote := "gamma", pageNumbers := [],
            reportedConfidence := 4/5 }).exactQuote t)) = false := by
  constructor
  · with_unfolding_all decide
  · decide

/-- C2 amended: every ExtractionRecord with positive confidence whose quote
verification succeeded cites an `exactQuote` that is a normalized substring
of at least one candidate chunk text; an unverified record keeps its halved
confidence without such a citation. -/
theorem verified_extraction_cites_candidate (docId fieldName : String)
    (texts : List String) (raw : RawExtraction)
    (hconf : 0 < (verifyAndBuild docId fieldName texts raw).confidence)
    (hver : (verifyAndBuild docId fieldName texts raw).verified = true) :
    ∃ t ∈ texts,
      quoteInText (verifyAndBuild docId fieldName texts raw).exactQuote t = true := by
  have h : texts.any (fun t => quoteInText raw.exactQuote t) = true := hver
  rw [List.any_eq_true] at h
  obtain ⟨t, ht, hq⟩ := h
  exact ⟨t, ht, hq⟩

/-- Witness for the amended C2: a verified extraction over a concrete chunk
text, with a quote differing in case and spacing from the source passage. -/
theorem verified_extraction_cites_candidate_witness :
    0 < (verifyAndBuild ("d") "f" ["requires thirty  days notice"]
          { value := "30 days", exactQuote := "THIRTY days", pageNumbers := [],
            reportedConfidence := 9/10 }).confidence ∧
    (verifyAndBuild ("d") "f" ["requires thirty  days notice"]
          { value := "30 days", exactQuote := "THIRTY days", pageNumbers := [],
            reportedConfidence := 9/10 }).verified = true ∧
    ∃ t ∈ ["requires thirty  days notice"],
      quoteInText
        (verifyAndBuild ("d") "f" ["requires thirty  days notice"]
          { value := "30 days", exactQuote := "THIRTY days", pageNumbers := [],
            reportedConfidence := 9/10 }).exactQuote t = true :=
  ⟨by with_unfolding_all decide, by decide,
    verified_extraction_cites_candidate ("d") "f" ["requires thirty  days notice"]
      { value := "30 days", exactQuote := "THIRTY days", pageNumbers := [],
        reportedConfidence := 9/10 } (by with_unfolding_all decide) (by decide)⟩

/-! ## C6: a document is a matrix row iff it has a surviving candidate -/

/-- C6: for every request, a document appears as a row of the returned
matrix iff it produced at least one surviving retrieval candidate for at
least one field; the records of the pass play no role in row membership, so
a document whose every cell failed extraction still appears, and one with
no candidates never does. -/
theorem matrix_row_iff_candidate (fieldSpecs : List FieldSpec)
    (retrievalByField : List (String × List RetrievalCandidate))
    (records : List ExtractionRecord) (d : String) :
    d ∈ (buildMatrix fieldSpecs retrievalByField records).rows.map Prod.fst ↔
      ∃ fc ∈ retrievalByField, ∃ c ∈ fc.2, c.documentId = d := by
  unfold buildMatrix rowDocuments
  simp [List.map_map, List.mem_dedup, List.mem_flatten, Function.comp]
  constructor
  · rintro ⟨l, ⟨a, b, hab, rfl⟩, hd⟩
    rcases List.mem_map.mp hd with ⟨c, hc, hcd⟩
    exact ⟨a, b, hab, c, hc, hcd⟩
  · rintro ⟨a, b, hab, c, hc, hcd⟩
    exact ⟨_, ⟨a, b, hab, rfl⟩, hcd ▸ List.mem_map_of_mem _ hc⟩

/-! ## C7: endpoint dispatch of the presentation layer -/

/-- C7: `handleExtract` POSTs to `/api/process` and consumes the
columns-and-data matrix shape exactly when the analysis type is `general`,
and POSTs to `/api/analyze-specialized` consuming the specialized shape for
every other analysis type. -/
theorem extract_dispatch_partition (t : AnalysisType) :
    ((handleExtractDispatch t).1 = "/api/process" ↔ t = AnalysisType.general) ∧
    ((handleExtractDispatch t).1 = "/api/analyze-specialized" ↔
      t ≠ AnalysisType.general) ∧
    (handleExtractDispatch t).2.1 = "POST" ∧
    ((handleExtractDispatch t).2.2 = ConsumedShape.matrixShape ↔
      t = AnalysisType.general) := by
  cases t <;> decide

/-! ## C8: the API layer fails closed without a token -/

/-- C8: with no Clerk token (or the empty token, by JS truthiness) every
backend call through `callBackendApi` fails with an error before any
network request is issued, and every request that is ever issued carries a
non-empty bearer token. -/
theorem missing_token_fails_closed (endpoint method : String)
    (body : Option String) (respond : ApiCallRecord → HttpResponse) :
    (callBackendApi none endpoint method body respond =
      (ApiOutcome.failure ("No Clerk token found. User might not be authenticated."),
       [])) ∧
    (callBackendApi (some ("")) endpoint method body respond =
      (ApiOutcome.failure ("No Clerk token found. User might not be authenticated."),
       [])) ∧
    (∀ (token : Option String) (req : ApiCallRecord),
      req ∈ (callBackendApi token endpoint method body respond).2 →
        req.authToken ≠ "") := by
  refine ⟨rfl, rfl, ?_⟩
  intro token req hmem
  match token with
  | none => simp [callBackendApi] at hmem
  | some tok =>
    by_cases htok : tok = ""
    · subst htok
      simp [callBackendApi] at hmem
    · simp only [callBackendApi, if_neg htok, List.mem_singleton] at hmem
      rw [hmem]
      exact htok

/-- Witness for C8: the absent-token case at a concrete endpoint with a
network that would answer successfully. -/
theorem missing_token_fails_closed_witness :
    callBackendApi none ("/api/process") "POST" none
        (fun _ => { contentTypeHtml := false, ok := true, status := 200, body := ("ok") }) =
      (ApiOutcome.failure ("No Clerk token found. User might not be authenticated."),
       []) :=
  (missing_token_fails_closed ("/api/process") "POST" none
    (fun _ => { contentTypeHtml := false, ok := true, status := 200, body := ("ok") })).1

/-! ## C9: empty-cell rendering versus header extraction count -/

/-- C9: `MatrixCell` renders the placeholder for a missing, empty or
sentinel-valued cell (`N/A`, `Not found`, `Not specified`, `Not Found`),
while `MatrixTable`'s extraction count only excludes empty, `N/A` and
`Not found` values, so a `Not specified` or `Not Found` cell is displayed
as empty yet counted as a successful extraction. -/
theorem placeholder_count_mismatch :
    (∀ c : CellData,
      (rendersPlaceholder (some c) = true ↔
        c.value = "" ∨ c.value = "N/A" ∨ c.value = "Not found" ∨
        c.value = "Not specified" ∨ c.value = "Not Found") ∧
      (countedAsExtraction c = true ↔
        c.value ≠ "" ∧ c.value ≠ "N/A" ∧ c.value ≠ "Not found")) ∧
    rendersPlaceholder none = true ∧
    (rendersPlaceholder (some (mkCell ("Not specified") "s")) = true ∧
      countedAsExtraction (mkCell ("Not specified") "s") = true) ∧
    (rendersPlaceholder (some (mkCell ("Not Found") "s")) = true ∧
      countedAsExtraction (mkCell ("Not Found") "s") = true) ∧
    totalExtractions [("doc", [("col", mkCell ("Not specified") "s")])] = 1 := by
  refine ⟨?_, by decide, ⟨by decide, by decide⟩, ⟨by decide, by decide⟩, by decide⟩
  intro c
  constructor
  · simp [rendersPlaceholder, or_assoc]
  · simp [countedAsExtraction, and_assoc]

/-! ## C10: the specialized path is unreachable from the page -/

/-- C10: `analysisType` is initialized to `general` and no event of the
page component ever changes it, so after any sequence of state updates the
dispatch of `handleExtract` still targets `/api/process`, never
`/api/analyze-specialized`, and the matrix table branch renders. -/
theorem specialized_path_unreachable (evs : List PageEvent) :
    (runPage evs).analysisType = AnalysisType.general ∧
    (handleExtractDispatch (runPage evs).analysisType).1 = "/api/process" ∧
    (handleExtractDispatch (runPage evs).analysisType).1 ≠ "/api/analyze-specialized" ∧
    rendersMatrixTable (runPage evs) = true := by
  have key : ∀ (s : PageState) (l : List PageEvent),
      (l.foldl applyEvent s).analysisType = s.analysisType := by
    intro s l
    induction l generalizing s with
    | nil => rfl
    | cons e rest ih =>
      rw [List.foldl_cons, ih]
      cases e <;> rfl
  have h : (runPage evs).analysisType = AnalysisType.general := key initialPageState evs
  refine ⟨h, ?_, ?_, ?_⟩
  · rw [h]; decide
  · rw [h]; decide
  · unfold rendersMatrixTable
    rw [h]; decide

/-! ## C5: rank fusion is invariant under strategy reordering -/

/-- Fused scores are invariant under permutation of the pooled candidates. -/
theorem fusedScore_perm {cs₁ cs₂ : List RetrievalCandidate} (h : cs₁.Perm cs₂)
    (cid : ℕ) : fusedScore cs₁ cid = fusedScore cs₂ cid := by
  unfold fusedScore
  exact ((h.filter _).map _).foldr_eq 0

/-- The merged per-chunk entry list of `fuse` is permutation-invariant up to
reordering when the strategy lists are permuted. -/
theorem fuse_perm {s₁ s₂ : List (List RetrievalCandidate)} (h : s₁.Perm s₂) :
    (fuse s₁).Perm (fuse s₂) := by
  unfold fuse
  have hcs : (s₁.flatMap (fun l => l)).Perm (s₂.flatMap (fun l => l)) :=
    h.flatMap_right _
  have hfun : (fun cid => (cid, fusedScore (s₁.flatMap (fun l => l)) cid)) =
      (fun cid => (cid, fusedScore (s₂.flatMap (fun l => l)) cid)) :=
    funext fun cid => by rw [fusedScore_perm hcs cid]
  rw [hfun]
  exact ((hcs.map _).dedup).map _

/-- C5: merging the retrieval strategies in any order yields the same final
top-K list: fusion deduplicates by chunk id keeping the maximal fused score,
filters by the score threshold, sorts by descending score with ties broken
by ascending chunk identifier, and truncates to K, so the result is
invariant under permutation of the strategy lists. -/
theorem fusion_order_invariant (p : RetrievalParams)
    (s₁ s₂ : List (List RetrievalCandidate)) (h : s₁.Perm s₂) :
    fuseTopK p s₁ = fuseTopK p s₂ := by
  have hperm : (List.insertionSort rankOrder (fuse s₁)).Perm
      (List.insertionSort rankOrder (fuse s₂)) :=
    (List.perm_insertionSort _ _).trans
      ((fuse_perm h).trans (List.perm_insertionSort _ _).symm)
  have hsorted : List.insertionSort rankOrder (fuse s₁) =
      List.insertionSort rankOrder (fuse s₂) :=
    List.eq_of_perm_of_sorted hperm (List.sorted_insertionSort _ _)
      (List.sorted_insertionSort _ _)
  unfold fuseTopK
  rw [hsorted]

/-- Witness for C5: two concrete strategy candidate lists merged in both
orders produce identical top-K results. -/
theorem fusion_order_invariant_witness :
    fuseTopK defaultParams
        [[{ chunkId := 1, documentId := "A", score := 9/10,
            strategy := Strategy.semantic }],
         [{ chunkId := 2, documentId := "B", score := 1/2,
            strategy := Strategy.keyword }]] =
      fuseTopK defaultParams
        [[{ chunkId := 2, documentId := "B", score := 1/2,
            strategy := Strategy.keyword }],
         [{ chunkId := 1, documentId := "A", score := 9/10,
            strategy := Strategy.semantic }]] :=
  fusion_order_invariant defaultParams _ _
    (List.Perm.swap
      ([{ chunkId := 2, documentId := "B", score := 1/2,
          strategy := Strategy.keyword }] : List RetrievalCandidate)
      ([{ chunkId := 1, documentId := "A", score := 9/10,
          strategy := Strategy.semantic }] : List RetrievalCandidate) [])

/-! ## C4: monotone relaxation of the retrieval parameters -/

/-- Entries of a rank-sorted list are ordered by weakly decreasing score. -/
theorem sorted_score_head {x : ℕ × ℚ} {xs : List (ℕ × ℚ)}
    (hs : List.Sorted rankOrder (x :: xs)) :
    ∀ b ∈ xs, b.2 ≤ x.2 := by
  intro b hb
  rcases List.rel_of_sorted_cons hs b hb with h | ⟨h, _⟩
  · exact le_of_lt h
  · exact le_of_eq h.symm

/-- Filtering a rank-sorted list at a lower threshold and truncating at a
larger K can only enlarge the surviving set. -/
theorem mem_take_filter_mono (t t' : ℚ) (htt' : t' ≤ t) :
    ∀ (l : List (ℕ × ℚ)), List.Sorted rankOrder l →
    ∀ (K K' : ℕ), K ≤ K' → ∀ e : ℕ × ℚ,
      e ∈ (l.filter (fun x => decide (t ≤ x.2))).take K →
      e ∈ (l.filter (fun x => decide (t' ≤ x.2))).take K' := by
  intro l
  induction l with
  | nil => intro _ K K' _ e h; simp at h
  | cons x xs ih =>
    intro hs K K' hKK e hmem
    have hs' : List.Sorted rankOrder xs := hs.of_cons
    by_cases hx : t ≤ x.2
    · have hx' : t' ≤ x.2 := le_trans htt' hx
      rw [List.filter_cons_of_pos (by simpa using hx)] at hmem
      match K, hKK with
      | 0, _ => simp at hmem
      | K0 + 1, hKK =>
        match K', hKK with
        | K0' + 1, hKK =>
          rw [List.take_succ_cons] at hmem
          rw [List.filter_cons_of_pos (by simpa using hx'), List.take_succ_cons]
          rcases List.mem_cons.mp hmem with he | he
          · exact he ▸ List.mem_cons_self x _
          · exact List.mem_cons_of_mem x
              (ih hs' K0 K0' (Nat.succ_le_succ_iff.mp hKK) e he)
    · have hnil : (x :: xs).filter (fun y => decide (t ≤ y.2)) = [] := by
        rw [List.filter_eq_nil_iff]
        intro b hb
        simp only [decide_eq_true_eq]
        rcases List.mem_cons.mp hb with rfl | hb'
        · exact hx
        · exact fun hc => hx (le_trans hc (sorted_score_head hs b hb'))
      rw [hnil] at hmem
      simp at hmem

/-- C4 counterexample: relaxing the parameters does not strictly widen the
candidate pool — with a single strong candidate the relaxed pass performs
retrieval work identical to the previous pass. -/
theorem relax_not_strict_counterexample :
    fuseTopK (relax defaultParams)
        [[{ chunkId := 1, documentId := "A", score := 9/10,
            strategy := Strategy.semantic }]] =
      fuseTopK defaultParams
        [[{ chunkId := 1, documentId := "A", score := 9/10,
            strategy := Strategy.semantic }]] := by
  with_unfolding_all decide

/-- C4 amended: on retry the parameters are relaxed monotonically — the
threshold is halved (hence no larger, the threshold being nonnegative) and
K grows by a fixed positive step — and the candidate pool widens weakly:
every entry of the previous pass's top-K list survives into the relaxed
pass's top-K list.  The widening need not be strict. -/
theorem relax_monotone (p : RetrievalParams) (hp : 0 ≤ p.scoreThreshold) :
    (relax p).scoreThreshold ≤ p.scoreThreshold ∧
    p.K < (relax p).K ∧
    (∀ (strats : List (List RetrievalCandidate)) (e : ℕ × ℚ),
      e ∈ fuseTopK p strats → e ∈ fuseTopK (relax p) strats) := by
  have hhalf : p.scoreThreshold / 2 ≤ p.scoreThreshold := half_le_self hp
  refine ⟨hhalf, ?_, ?_⟩
  · show p.K < p.K + K_STEP
    have : 0 < K_STEP := by decide
    omega
  · intro strats e hmem
    unfold fuseTopK at hmem ⊢
    exact mem_take_filter_mono p.scoreThreshold (relax p).scoreThreshold hhalf
      (List.insertionSort rankOrder (fuse strats))
      (List.sorted_insertionSort _ _) p.K (relax p).K
      (by show p.K ≤ p.K + K_STEP; omega) e hmem

/-- Witness for the amended C4 at the default parameters. -/
theorem relax_monotone_witness :
    0 ≤ defaultParams.scoreThreshold ∧
    (relax defaultParams).scoreThreshold ≤ defaultParams.scoreThreshold ∧
    defaultParams.K < (relax defaultParams).K :=
  ⟨by with_unfolding_all decide,
   (relax_monotone defaultParams (by with_unfolding_all decide)).1,
   (relax_monotone defaultParams (by with_unfolding_all decide)).2.1⟩

end ContractAnalysis
